import Mathlib

/-!
A shallow embedding of the gamification engine of `src/pomodoro/gamification.py`:
the pure formula library (`calculate_level`, `calculate_xp_for_level`,
`calculate_xp_progress`, `calculate_pomodoro_xp`, `calculate_streak`) and the
stateful `GamificationTracker` (`record_pomodoro`, badge awarding, weekly and
monthly aggregation), together with theorems settling the specification's
claims about them.

Conventions of the embedding:
* Python integers are `ℤ` (or `ℕ` where the source value is provably
  non-negative, e.g. counters and focus seconds).
* The float expressions of the source (`0.1`-bonus multipliers, `round(x, 1)`,
  percentage divisions) are modelled in exact rational arithmetic `ℚ`;
  `int(x)` truncation of a non-negative value is `Int.toNat ∘ Int.floor`, and
  Python's `round` (banker's rounding) is `pyRoundHalfEven`.
* `YYYY-MM-DD` date strings are parsed to year/month/day and converted to a
  day number (days since 1970-01-01, proleptic Gregorian calendar, modelling
  the external `datetime.date` arithmetic the source calls); Python's
  `date.weekday()` (Monday = 0) is `(dayNumber + 3) % 7`.
* Python's insertion-ordered `dict[str, DailyStats]` is an association list.
-/

set_option maxRecDepth 8192

namespace Pomodoro

/-! ### Dates -/

/-- The code points of a string, the view under which we compare and parse
date strings (Python compares `str` lexicographically by code point). -/
def codes (s : String) : List ℕ := s.toList.map Char.toNat

/-- Year/month/day triple, the result of parsing a `YYYY-MM-DD` string. -/
structure Ymd where
  y : ℕ
  m : ℕ
  d : ℕ
deriving DecidableEq, Inhabited

/-- Parse a `YYYY-MM-DD` string as `datetime.strptime(s, "%Y-%m-%d")` does.
The source raises on malformed input; the claims only ever apply it to
well-formed dates, so malformed input is mapped to a default. -/
def parseYmd (s : String) : Ymd :=
  match codes s with
  | [y1, y2, y3, y4, _, m1, m2, _, d1, d2] =>
      ⟨(y1 - 48) * 1000 + (y2 - 48) * 100 + (y3 - 48) * 10 + (y4 - 48),
       (m1 - 48) * 10 + (m2 - 48),
       (d1 - 48) * 10 + (d2 - 48)⟩
  | _ => ⟨1970, 1, 1⟩

/-- Day number (days since 1970-01-01) of a proleptic-Gregorian civil date,
modelling `datetime.date` subtraction/comparison. Uses floor division
(which `/` on `ℤ` is). -/
def daysFromCivil (x : Ymd) : ℤ :=
  let y : ℤ := if x.m ≤ 2 then (x.y : ℤ) - 1 else (x.y : ℤ)
  let m : ℤ := x.m
  let era : ℤ := y / 400
  let yoe : ℤ := y - era * 400
  let doy : ℤ := (153 * (if 2 < m then m - 3 else m + 9) + 2) / 5 + (x.d : ℤ) - 1
  let doe : ℤ := yoe * 365 + yoe / 4 - yoe / 100 + doy
  era * 146097 + doe - 719468

/-- Inverse of `daysFromCivil`: the civil date of a day number, modelling
`date + timedelta(days=i)` followed by field access / `isoformat`. -/
def civilFromDays (z0 : ℤ) : Ymd :=
  let z := z0 + 719468
  let era := z / 146097
  let doe := z - era * 146097
  let yoe := (doe - doe / 1460 + doe / 36524 - doe / 146096) / 365
  let y := yoe + era * 400
  let doy := doe - (365 * yoe + yoe / 4 - yoe / 100)
  let mp := (5 * doy + 2) / 153
  let d := doy - (153 * mp + 2) / 5 + 1
  let m := if mp < 10 then mp + 3 else mp - 9
  ⟨(if m ≤ 2 then y + 1 else y).toNat, m.toNat, d.toNat⟩

/-- `n` rendered as decimal digits, `width` characters wide (zero padded). -/
def padDigits (width n : ℕ) : List Char :=
  (List.range width).map fun i => Char.ofNat (48 + n / 10 ^ (width - 1 - i) % 10)

/-- `date.isoformat()`: `YYYY-MM-DD`. -/
def isoformat (x : Ymd) : String :=
  String.mk (padDigits 4 x.y ++ [Char.ofNat 45] ++ padDigits 2 x.m ++
    [Char.ofNat 45] ++ padDigits 2 x.d)

/-- `today.strftime("%Y-%m")`: `YYYY-MM`. -/
def formatYm (y m : ℕ) : String :=
  String.mk (padDigits 4 y ++ [Char.ofNat 45] ++ padDigits 2 m)

/-- Day number of a `YYYY-MM-DD` string. -/
def dateOf (s : String) : ℤ := daysFromCivil (parseYmd s)

/-- `date.weekday()` of a day number: Monday = 0 (1970-01-01 was a Thursday). -/
def weekdayOf (z : ℤ) : ℤ := (z + 3) % 7

/-- Lexicographic order on code-point lists: Python's `str` comparison. -/
def lexLe : List ℕ → List ℕ → Bool
  | [], _ => true
  | _ :: _, [] => false
  | a :: as, b :: bs => if a < b then true else if b < a then false else lexLe as bs

/-- Python's `s1 <= s2` on strings. -/
def strLe (a b : String) : Prop := lexLe (codes a) (codes b) = true

instance : DecidableRel strLe := fun _ _ => inferInstanceAs (Decidable (_ = true))

/-- The descending order `sorted(..., reverse=True)` sorts by. -/
def descOrder (a b : String) : Prop := strLe b a

instance : DecidableRel descOrder := fun a b => inferInstanceAs (Decidable (strLe b a))

/-! ### Pure formula library -/

/-- The accumulation loop shared by `calculate_xp_for_level` (its
`for _ in range(1, level)` loop) and, via `levelStairs`, by
`calculate_level`'s `while` loop: starting from `xp_required`/`xp_increment`,
add the increment `n` times, growing it by 50 each time. -/
def xpForLoop : ℕ → ℕ → ℕ → ℕ
  | 0, xp_required, _ => xp_required
  | n + 1, xp_required, xp_increment => xpForLoop n (xp_required + xp_increment) (xp_increment + 50)

/-- `calculate_xp_for_level(level)`: cumulative XP required to reach `level`
(`level <= 1` gives 0); increments 100, 150, 200, … -/
def calculate_xp_for_level (level : ℤ) : ℤ :=
  if level ≤ 1 then 0 else (xpForLoop (level - 1).toNat 0 100 : ℤ)

/-- The `while xp >= xp_required` loop of `calculate_level`, with the fuel
argument bounding the iteration count (the loop always terminates within
`xp + 2` iterations since `xp_required` grows by at least 100 per step;
`levelLoop_fuel_irrel` below shows the fuel is irrelevant once sufficient). -/
def levelLoopF : ℕ → ℕ → ℕ → ℕ → ℕ → ℕ
  | 0, _, _, _, level => level
  | fuel + 1, xp, xp_required, xp_increment, level =>
      if xp_required ≤ xp then levelLoopF fuel xp (xp_required + xp_increment) (xp_increment + 50) (level + 1)
      else level

/-- `calculate_level(xp)`: level from XP; negative XP clamps to level 1. -/
def calculate_level (xp : ℤ) : ℤ :=
  if xp < 0 then 1
  else ((levelLoopF (xp.toNat + 2) xp.toNat 0 100 1 - 1 : ℕ) : ℤ)

/-- Python's `round` on an exact value: round half to even. -/
def pyRoundHalfEven (q : ℚ) : ℤ :=
  let f := ⌊q⌋
  let r := q - (f : ℚ)
  if r < 1 / 2 then f
  else if 1 / 2 < r then f + 1
  else if f % 2 = 0 then f else f + 1

/-- Python's `round(q, 1)`. -/
def pyRound1 (q : ℚ) : ℚ := (pyRoundHalfEven (q * 10) : ℚ) / 10

/-- Result shape of `calculate_xp_progress`. -/
structure XpProgress where
  level : ℤ
  total_xp : ℤ
  xp_in_current_level : ℤ
  xp_needed_for_next : ℤ
  progress_percent : ℚ
deriving DecidableEq, Inhabited

/-- `calculate_xp_progress(xp)`: level, XP within the level, XP needed for the
next level, and the guarded percentage `round(... * 100, 1)`. -/
def calculate_xp_progress (xp : ℤ) : XpProgress :=
  let current_level := calculate_level xp
  let current_level_xp := calculate_xp_for_level current_level
  let next_level_xp := calculate_xp_for_level (current_level + 1)
  let xp_in_current_level := xp - current_level_xp
  let xp_needed_for_next := next_level_xp - current_level_xp
  { level := current_level
    total_xp := xp
    xp_in_current_level := xp_in_current_level
    xp_needed_for_next := xp_needed_for_next
    progress_percent :=
      if 0 < xp_needed_for_next then
        pyRound1 ((xp_in_current_level : ℚ) / (xp_needed_for_next : ℚ) * 100)
      else 0 }

/-- `calculate_pomodoro_xp(focus_seconds, streak_days)`, the source expression
`int(base_xp * (1 + min(streak_days * 0.1, 0.5)))` in exact arithmetic:
`min(streak_days * 0.1, 0.5) = min(streak_days, 5) / 10`, so the truncated
product is `base_xp * (10 + min(streak_days, 5)) / 10` in natural-number
(floor) division. Theorem `c3_pomodoro_xp_formula` proves this equal to the
rational floor expression. -/
def calculate_pomodoro_xp (focus_seconds : ℕ) (streak_days : ℕ) : ℕ :=
  let base_xp := focus_seconds / 60
  base_xp * (10 + min streak_days 5) / 10

/-- The `for i in range(len(unique_dates) - 1)` loop of `calculate_streak`:
count how many successive adjacent pairs differ by exactly one day, stopping
at the first gap. -/
def countConsec : ℤ → List ℤ → ℕ
  | _, [] => 0
  | current, prev :: rest => if current - prev = 1 then 1 + countConsec prev rest else 0

/-- `calculate_streak(dates, today)`: dedupe, sort descending, return 0 when
empty or when the most recent date is more than a day before `today`,
otherwise 1 + the length of the run of consecutive days. -/
def calculate_streak (dates : List String) (today : String) : ℕ :=
  if dates = [] then 0
  else
    match (dates.dedup).insertionSort descOrder with
    | [] => 0
    | most_recent_s :: rest =>
        let today_date := dateOf today
        let most_recent := dateOf most_recent_s
        if 1 < today_date - most_recent then 0
        else 1 + countConsec most_recent (rest.map dateOf)

/-! ### Tracker state -/

/-- The fixed closed enumeration of badge kinds (`BadgeType`). -/
inductive BadgeType where
  | first_pomodoro
  | streak_3
  | streak_7
  | streak_30
  | weekly_10
  | weekly_25
  | monthly_50
  | monthly_100
  | level_5
  | level_10
  | focus_master
deriving DecidableEq, Inhabited

/-- An awarded badge: its kind and the date it was earned (`Badge`). -/
structure Badge where
  badge_type : BadgeType
  earned_at : String
deriving DecidableEq, Inhabited

/-- One day's statistics (`DailyStats`). -/
structure DailyStats where
  date : String
  completed_pomodoros : ℕ
  total_focus_seconds : ℕ
  xp_earned : ℕ
deriving DecidableEq, Inhabited

/-- A fresh `DailyStats(date=d)` (all counters default to 0). -/
def DailyStats.fresh (d : String) : DailyStats := ⟨d, 0, 0, 0⟩

/-- The insertion-ordered `dict[str, DailyStats]`. -/
abbrev StatsMap := List (String × DailyStats)

/-- `self._daily_stats[key]` lookup (first — in a dict, only — binding). -/
def lookupStat : StatsMap → String → Option DailyStats
  | [], _ => none
  | (k, v) :: rest, key => if key = k then some v else lookupStat rest key

/-- `self._daily_stats[key] = value` on an existing key. -/
def updateStat : StatsMap → String → DailyStats → StatsMap
  | [], _, _ => []
  | (k, v) :: rest, key, nv =>
      if key = k then (k, nv) :: rest else (k, v) :: updateStat rest key nv

/-- `GamificationTracker._get_or_create_daily_stats`: insert a fresh entry for
the date when absent (a dict inserts new keys at the end). -/
def getOrCreateDailyStats (m : StatsMap) (date_str : String) : StatsMap :=
  if (lookupStat m date_str).isSome then m else m ++ [(date_str, DailyStats.fresh date_str)]

/-- The mutable state of a `GamificationTracker` (the injected
`date_provider` becomes an explicit `today` argument of each operation). -/
structure GamificationTracker where
  total_xp : ℕ
  total_focus_seconds : ℕ
  badges : List Badge
  daily_stats : StatsMap
deriving DecidableEq, Inhabited

/-- The freshly constructed tracker (`__init__`). -/
def GamificationTracker.start : GamificationTracker := ⟨0, 0, [], []⟩

/-- `list(self._daily_stats.keys())`. -/
def statsKeys (m : StatsMap) : List String := m.map Prod.fst

/-- The `streak_days` property: `calculate_streak` over the day keys. -/
def streakDays (t : GamificationTracker) (today : String) : ℕ :=
  calculate_streak (statsKeys t.daily_stats) today

/-- `GamificationTracker._has_badge`. -/
def hasBadge (t : GamificationTracker) (bt : BadgeType) : Bool :=
  t.badges.any fun b => decide (b.badge_type = bt)

/-- `sum(s.completed_pomodoros for s in self._daily_stats.values())`. -/
def sumPomodoros (m : StatsMap) : ℕ := (m.map fun p => p.2.completed_pomodoros).sum

/-- Sum of the per-day `xp_earned` fields. -/
def sumXp (m : StatsMap) : ℕ := (m.map fun p => p.2.xp_earned).sum

/-- Sum of the per-day `total_focus_seconds` fields. -/
def sumFocus (m : StatsMap) : ℕ := (m.map fun p => p.2.total_focus_seconds).sum

/-- `today - timedelta(days=today.weekday())` as a day number. -/
def weekStartOf (today : String) : ℤ := dateOf today - weekdayOf (dateOf today)

/-- `today.replace(day=1)` as a day number. -/
def monthStartOf (today : String) : ℤ :=
  daysFromCivil ⟨(parseYmd today).y, (parseYmd today).m, 1⟩

/-- `GamificationTracker._get_weekly_pomodoros`: sessions recorded on days
from the week's Monday through today (date comparison is day-number
comparison). -/
def getWeeklyPomodoros (t : GamificationTracker) (today : String) : ℕ :=
  t.daily_stats.foldl
    (fun acc p =>
      if weekStartOf today ≤ dateOf p.1 ∧ dateOf p.1 ≤ dateOf today then
        acc + p.2.completed_pomodoros
      else acc) 0

/-- `GamificationTracker._get_monthly_pomodoros`. -/
def getMonthlyPomodoros (t : GamificationTracker) (today : String) : ℕ :=
  t.daily_stats.foldl
    (fun acc p =>
      if monthStartOf today ≤ dateOf p.1 ∧ dateOf p.1 ≤ dateOf today then
        acc + p.2.completed_pomodoros
      else acc) 0

/-- One `if cond and not self._has_badge(bt): new_badges.append(self._award_badge(bt))`
step of `_check_badges`, threading the tracker and the `new_badges` list. -/
def awardIf (st : GamificationTracker × List Badge) (cond : Prop) [Decidable cond]
    (bt : BadgeType) (today : String) : GamificationTracker × List Badge :=
  if cond ∧ hasBadge st.1 bt = false then
    ({ st.1 with badges := st.1.badges ++ [⟨bt, today⟩] }, st.2 ++ [⟨bt, today⟩])
  else st

/-- `GamificationTracker._check_badges`: evaluate the eleven award rules in
the fixed source order against the current state, awarding each badge kind at
most once. -/
def checkBadges (t : GamificationTracker) (today : String) :
    GamificationTracker × List Badge :=
  let s1 := awardIf (t, []) (1 ≤ sumPomodoros t.daily_stats) .first_pomodoro today
  let streak := streakDays s1.1 today
  let s2 := awardIf s1 (3 ≤ streak) .streak_3 today
  let s3 := awardIf s2 (7 ≤ streak) .streak_7 today
  let s4 := awardIf s3 (30 ≤ streak) .streak_30 today
  let weekly_count := getWeeklyPomodoros s4.1 today
  let s5 := awardIf s4 (10 ≤ weekly_count) .weekly_10 today
  let s6 := awardIf s5 (25 ≤ weekly_count) .weekly_25 today
  let monthly_count := getMonthlyPomodoros s6.1 today
  let s7 := awardIf s6 (50 ≤ monthly_count) .monthly_50 today
  let s8 := awardIf s7 (100 ≤ monthly_count) .monthly_100 today
  let level := calculate_level s8.1.total_xp
  let s9 := awardIf s8 (5 ≤ level) .level_5 today
  let s10 := awardIf s9 (10 ≤ level) .level_10 today
  awardIf s10 (360000 ≤ s10.1.total_focus_seconds) .focus_master today

/-- Result dictionary of `record_pomodoro`. -/
structure RecordResult where
  xp_earned : ℕ
  total_xp : ℕ
  level : ℤ
  new_badges : List Badge
  streak_days : ℕ
deriving DecidableEq, Inhabited

/-- `GamificationTracker.record_pomodoro(focus_seconds)`: create today's
entry if new, compute the streak from the (already extended) key set, add the
XP with streak bonus to the totals and to today's entry, then run the badge
rules; returns the updated tracker and the result dictionary. -/
def record_pomodoro (t : GamificationTracker) (today : String) (focus_seconds : ℕ) :
    GamificationTracker × RecordResult :=
  let m1 := getOrCreateDailyStats t.daily_stats today
  let streak := calculate_streak (statsKeys m1) today
  let xp_earned := calculate_pomodoro_xp focus_seconds streak
  let stats := (lookupStat m1 today).getD (DailyStats.fresh today)
  let stats2 : DailyStats :=
    { stats with
        completed_pomodoros := stats.completed_pomodoros + 1
        total_focus_seconds := stats.total_focus_seconds + focus_seconds
        xp_earned := stats.xp_earned + xp_earned }
  let t1 : GamificationTracker :=
    { total_xp := t.total_xp + xp_earned
      total_focus_seconds := t.total_focus_seconds + focus_seconds
      badges := t.badges
      daily_stats := updateStat m1 today stats2 }
  let checked := checkBadges t1 today
  (checked.1,
    { xp_earned := xp_earned
      total_xp := t1.total_xp
      level := calculate_level (t1.total_xp : ℤ)
      new_badges := checked.2
      streak_days := calculate_streak (statsKeys t1.daily_stats) today })

/-- A sequence of `record_pomodoro` calls, each with its provided date. -/
def runCalls (t : GamificationTracker) (calls : List (String × ℕ)) : GamificationTracker :=
  calls.foldl (fun t c => (record_pomodoro t c.1 c.2).1) t

/-! ### Aggregate queries -/

/-- One element of `get_weekly_stats`'s `daily_data`. -/
structure DayEntry where
  date : String
  day_name : String
  completed_pomodoros : ℕ
  focus_minutes : ℕ
deriving DecidableEq, Inhabited

/-- Result shape of `get_weekly_stats`. -/
structure WeeklyStats where
  week_start : String
  daily_data : List DayEntry
  total_pomodoros : ℕ
  total_focus_minutes : ℕ
  avg_pomodoros_per_day : ℚ
  avg_focus_minutes_per_day : ℚ
deriving DecidableEq, Inhabited

/-- The localized day names `["月", ..., "日"]`. -/
def dayNames : List String := ["月", "火", "水", "木", "金", "土", "日"]

/-- `self._daily_stats.get(date_str, DailyStats(date=date_str))` for day `i`
of the week starting at `week_start`. -/
def weeklyDayStat (t : GamificationTracker) (week_start : ℤ) (i : ℕ) : DailyStats :=
  let date_str := isoformat (civilFromDays (week_start + (i : ℤ)))
  (lookupStat t.daily_stats date_str).getD (DailyStats.fresh date_str)

/-- The `daily_data` entry for day `i` of the week. -/
def weeklyEntry (t : GamificationTracker) (week_start : ℤ) (i : ℕ) : DayEntry :=
  { date := isoformat (civilFromDays (week_start + (i : ℤ)))
    day_name := dayNames.getD i ""
    completed_pomodoros := (weeklyDayStat t week_start i).completed_pomodoros
    focus_minutes := (weeklyDayStat t week_start i).total_focus_seconds / 60 }

/-- One iteration of `get_weekly_stats`'s `for i in range(7)` loop: append
day `i`'s entry and, when the day is not after today, add its session count
and focus-seconds to the running totals. -/
def weeklyStep (t : GamificationTracker) (ws td : ℤ)
    (acc : List DayEntry × ℕ × ℕ) (i : ℕ) : List DayEntry × ℕ × ℕ :=
  (acc.1 ++ [weeklyEntry t ws i],
   if ws + (i : ℤ) ≤ td then
     (acc.2.1 + (weeklyDayStat t ws i).completed_pomodoros,
      acc.2.2 + (weeklyDayStat t ws i).total_focus_seconds)
   else acc.2)

/-- `GamificationTracker.get_weekly_stats`: the `for i in range(7)` loop
builds the seven `daily_data` entries and accumulates totals only for days
`d <= today`; averages divide by `today.weekday() + 1`. -/
def get_weekly_stats (t : GamificationTracker) (today : String) : WeeklyStats :=
  let td := dateOf today
  let ws := weekStartOf today
  let r := (List.range 7).foldl (weeklyStep t ws td) ([], 0, 0)
  let days_passed : ℤ := weekdayOf td + 1
  { week_start := isoformat (civilFromDays ws)
    daily_data := r.1
    total_pomodoros := r.2.1
    total_focus_minutes := r.2.2 / 60
    avg_pomodoros_per_day :=
      if 0 < days_passed then pyRound1 ((r.2.1 : ℚ) / (days_passed : ℚ)) else 0
    avg_focus_minutes_per_day :=
      if 0 < days_passed then pyRound1 (((r.2.2 : ℚ) / 60) / (days_passed : ℚ)) else 0 }

/-- Result shape of `get_monthly_stats`. -/
structure MonthlyStats where
  month : String
  total_pomodoros : ℕ
  total_focus_minutes : ℕ
  active_days : ℕ
  days_passed : ℤ
  days_in_month : ℤ
  completion_rate : ℚ
deriving DecidableEq, Inhabited

/-- `GamificationTracker.get_monthly_stats`: totals and active days over the
first-of-month-through-today window, days in the month via next-month
rollover, completion rate guarded against a zero denominator. -/
def get_monthly_stats (t : GamificationTracker) (today : String) : MonthlyStats :=
  let td := dateOf today
  let ymd := parseYmd today
  let month_start := monthStartOf today
  let next_month : Ymd := if ymd.m = 12 then ⟨ymd.y + 1, 1, 1⟩ else ⟨ymd.y, ymd.m + 1, 1⟩
  let days_in_month := daysFromCivil next_month - month_start
  let acc := t.daily_stats.foldl
    (fun acc p =>
      if month_start ≤ dateOf p.1 ∧ dateOf p.1 ≤ td then
        (acc.1 + p.2.completed_pomodoros,
         acc.2.1 + p.2.total_focus_seconds,
         if 0 < p.2.completed_pomodoros then acc.2.2 + 1 else acc.2.2)
      else acc)
    (0, 0, 0)
  let days_passed := td - month_start + 1
  { month := formatYm ymd.y ymd.m
    total_pomodoros := acc.1
    total_focus_minutes := acc.2.1 / 60
    active_days := acc.2.2
    days_passed := days_passed
    days_in_month := days_in_month
    completion_rate :=
      if 0 < days_passed then pyRound1 ((acc.2.2 : ℚ) / (days_passed : ℚ) * 100) else 0 }

/-- `GamificationTracker.get_xp_progress`. -/
def get_xp_progress (t : GamificationTracker) : XpProgress :=
  calculate_xp_progress (t.total_xp : ℤ)

/-- Result shape of `GamificationTracker.to_dict`. -/
structure Snapshot where
  level : ℤ
  total_xp : ℕ
  xp_progress : XpProgress
  streak_days : ℕ
  badges : List Badge
  total_focus_seconds : ℕ
  weekly_stats : WeeklyStats
  monthly_stats : MonthlyStats
deriving DecidableEq, Inhabited

/-- `GamificationTracker.to_dict`. -/
def to_dict (t : GamificationTracker) (today : String) : Snapshot :=
  { level := calculate_level (t.total_xp : ℤ)
    total_xp := t.total_xp
    xp_progress := get_xp_progress t
    streak_days := streakDays t today
    badges := t.badges
    total_focus_seconds := t.total_focus_seconds
    weekly_stats := get_weekly_stats t today
    monthly_stats := get_monthly_stats t today }

/-- State-threaded form of `get_weekly_stats`: the method body assigns to no
tracker field and reads the day map only with the non-inserting `dict.get`,
so the state it returns is the state it received. -/
def get_weekly_statsM (t : GamificationTracker) (today : String) :
    WeeklyStats × GamificationTracker :=
  (get_weekly_stats t today, t)

/-- State-threaded form of `get_monthly_stats` (no field assignment). -/
def get_monthly_statsM (t : GamificationTracker) (today : String) :
    MonthlyStats × GamificationTracker :=
  (get_monthly_stats t today, t)

/-- State-threaded form of `get_xp_progress` (no field assignment). -/
def get_xp_progressM (t : GamificationTracker) : XpProgress × GamificationTracker :=
  (get_xp_progress t, t)

/-- State-threaded form of `to_dict` (no field assignment). -/
def to_dictM (t : GamificationTracker) (today : String) :
    Snapshot × GamificationTracker :=
  (to_dict t today, t)

/-! ### Date-string constants used by the claims -/

/-- The date `2025-11-20`. -/
def d1120 : String := "2025-11-20"

/-- The date `2025-11-25`. -/
def d1125 : String := "2025-11-25"

/-- The date `2025-11-27`. -/
def d1127 : String := "2025-11-27"

/-- The date `2025-11-28`. -/
def d1128 : String := "2025-11-28"

/-- The date `2025-11-29`. -/
def d1129 : String := "2025-11-29"

/-! ### The level staircase -/

/-- Closed form of the cumulative XP staircase: `stairs k` is the value of
`xp_required` after `k` iterations of either loop (increments
100, 150, 200, …), so `stairs k = 100 + 150 + ... = 25k(k+3)`. -/
def stairs (k : ℕ) : ℕ := 25 * k * (k + 3)

theorem stairs_succ (k : ℕ) : stairs k + (100 + 50 * k) = stairs (k + 1) := by
  unfold stairs; ring

theorem stairs_strictMono : StrictMono stairs := by
  apply strictMono_nat_of_lt_succ
  intro n
  unfold stairs
  nlinarith

theorem le_stairs (k : ℕ) : k ≤ stairs k := by
  unfold stairs
  nlinarith

theorem xpForLoop_stairs : ∀ n k : ℕ, xpForLoop n (stairs k) (100 + 50 * k) = stairs (k + n) := by
  intro n
  induction n with
  | zero => intro k; simp [xpForLoop]
  | succ n ih =>
      intro k
      show xpForLoop n (stairs k + (100 + 50 * k)) (100 + 50 * k + 50) = _
      rw [stairs_succ]
      have h50 : 100 + 50 * k + 50 = 100 + 50 * (k + 1) := by ring
      rw [h50, ih (k + 1)]
      congr 1
      omega

theorem exists_lt_stairs (xp : ℕ) : ∃ d, xp < stairs d :=
  ⟨xp + 1, by have := le_stairs (xp + 1); omega⟩

theorem levelLoopF_run (xp : ℕ) :
    ∀ (d fuel k lv : ℕ), d < fuel → (∀ j, j < d → stairs (k + j) ≤ xp) →
      xp < stairs (k + d) →
      levelLoopF fuel xp (stairs k) (100 + 50 * k) lv = lv + d := by
  intro d
  induction d with
  | zero =>
      intro fuel k lv hfuel _ hlt
      match fuel, hfuel with
      | fuel + 1, _ =>
        show (if stairs k ≤ xp then _ else lv) = lv + 0
        rw [if_neg (by simp at hlt; omega)]
        omega
  | succ d ih =>
      intro fuel k lv hfuel hle hlt
      match fuel, hfuel with
      | fuel + 1, hfuel =>
        show (if stairs k ≤ xp then
            levelLoopF fuel xp (stairs k + (100 + 50 * k)) (100 + 50 * k + 50) (lv + 1)
          else lv) = lv + (d + 1)
        rw [if_pos (by have := hle 0 (by omega); simpa using this)]
        rw [stairs_succ]
        have h50 : 100 + 50 * k + 50 = 100 + 50 * (k + 1) := by ring
        rw [h50]
        have hle2 : ∀ j, j < d → stairs (k + 1 + j) ≤ xp := by
          intro j hj
          have := hle (j + 1) (by omega)
          have harg : k + 1 + j = k + (j + 1) := by omega
          rw [harg]
          exact this
        have hlt2 : xp < stairs (k + 1 + d) := by
          have harg : k + 1 + d = k + (d + 1) := by omega
          rw [harg]
          exact hlt
        rw [ih fuel (k + 1) (lv + 1) (by omega) hle2 hlt2]
        omega

theorem calculate_level_natCast (xp : ℕ) :
    calculate_level (xp : ℤ) = (Nat.find (exists_lt_stairs xp) : ℤ) := by
  unfold calculate_level
  rw [if_neg (by omega), Int.toNat_natCast]
  set d := Nat.find (exists_lt_stairs xp) with hd
  have hspec : xp < stairs d := Nat.find_spec (exists_lt_stairs xp)
  have hmin : ∀ j, j < d → stairs j ≤ xp := by
    intro j hj
    exact le_of_not_lt (Nat.find_min (exists_lt_stairs xp) hj)
  have hdlt : d < xp + 2 := by
    rcases Nat.eq_zero_or_pos d with h0 | h1
    · omega
    · have h2 := hmin (d - 1) (by omega)
      have h3 := le_stairs (d - 1)
      omega
  have hrun := levelLoopF_run xp d (xp + 2) 0 1 hdlt
    (by intro j hj; simpa using hmin j hj) (by simpa using hspec)
  have h0 : stairs 0 = 0 := by norm_num [stairs]
  have h100 : 100 + 50 * 0 = 100 := by norm_num
  rw [h0, h100] at hrun
  rw [hrun]
  omega

theorem calculate_level_eq_of (xp n : ℕ) (h1 : ∀ j, j < n → stairs j ≤ xp)
    (h2 : xp < stairs n) : calculate_level (xp : ℤ) = (n : ℤ) := by
  rw [calculate_level_natCast]
  norm_cast
  rw [Nat.find_eq_iff]
  exact ⟨h2, fun j hj => not_lt.2 (h1 j hj)⟩

theorem calculate_level_le (xp n : ℕ) (h : xp < stairs n) :
    calculate_level (xp : ℤ) ≤ (n : ℤ) := by
  rw [calculate_level_natCast]
  exact_mod_cast Nat.find_min' (exists_lt_stairs xp) h

theorem calculate_xp_for_level_natCast (n : ℕ) (h : 1 ≤ n) :
    calculate_xp_for_level (n : ℤ) = (stairs (n - 1) : ℤ) := by
  unfold calculate_xp_for_level
  rcases eq_or_lt_of_le h with h1 | h2
  · rw [if_pos (by omega)]
    norm_num [← h1, stairs]
  · rw [if_neg (by omega)]
    have ht : ((n : ℤ) - 1).toNat = n - 1 := by omega
    rw [ht]
    have h0 : stairs 0 = 0 := by norm_num [stairs]
    have h100 : (100 : ℕ) = 100 + 50 * 0 := by norm_num
    rw [← h0, h100, xpForLoop_stairs]
    norm_num

/-! ### Claim C4 -/

/-- C4: for every integer `n ≥ 1`, `calculate_level (calculate_xp_for_level n) = n`,
and for every `n ≥ 2`, `calculate_level (calculate_xp_for_level n - 1) = n - 1`:
`calculate_xp_for_level` is the exact inverse boundary of the level staircase. -/
theorem c4_level_inverse (n : ℤ) :
    (1 ≤ n → calculate_level (calculate_xp_for_level n) = n) ∧
    (2 ≤ n → calculate_level (calculate_xp_for_level n - 1) = n - 1) := by
  constructor
  · intro h1
    lift n to ℕ using (by omega : (0 : ℤ) ≤ n)
    have hn : 1 ≤ n := by exact_mod_cast h1
    rw [calculate_xp_for_level_natCast n hn]
    rw [calculate_level_eq_of (stairs (n - 1)) n
      (fun j hj => stairs_strictMono.monotone (by omega))
      (stairs_strictMono (by omega))]
  · intro h2
    lift n to ℕ using (by omega : (0 : ℤ) ≤ n)
    have hn : 2 ≤ n := by exact_mod_cast h2
    rw [calculate_xp_for_level_natCast n (by omega)]
    have h100 : 100 ≤ stairs (n - 1) := by
      have h1 : stairs 1 ≤ stairs (n - 1) := stairs_strictMono.monotone (by omega)
      have : stairs 1 = 100 := by norm_num [stairs]
      omega
    have hcast : (stairs (n - 1) : ℤ) - 1 = ((stairs (n - 1) - 1 : ℕ) : ℤ) := by omega
    rw [hcast]
    rw [calculate_level_eq_of (stairs (n - 1) - 1) (n - 1)
      (fun j hj => by
        have := stairs_strictMono (show j < n - 1 by omega)
        omega)
      (by omega)]
    omega

/-- Witness for C4 at `n = 3`. -/
theorem c4_level_inverse_witness :
    calculate_level (calculate_xp_for_level 3) = 3 ∧
    calculate_level (calculate_xp_for_level 3 - 1) = 2 := by
  refine ⟨(c4_level_inverse 3).1 (by norm_num), ?_⟩
  have h := (c4_level_inverse 3).2 (by norm_num)
  norm_num at h
  exact h

/-! ### Claim C3 -/

/-- C3: the reference values `calculate_pomodoro_xp 1500 0 = 25`,
`1500 3 = 32`, `1500 10 = 37`; in general the result is
`⌊(focus_seconds / 60) * (1 + min (streak_days * 0.1) 0.5)⌋`, and the bonus is
capped at 50% from streak 5 onward. -/
theorem c3_pomodoro_xp_spec :
    calculate_pomodoro_xp 1500 0 = 25 ∧ calculate_pomodoro_xp 1500 3 = 32 ∧
    calculate_pomodoro_xp 1500 10 = 37 ∧
    (∀ fs k : ℕ, (calculate_pomodoro_xp fs k : ℤ)
        = ⌊((fs / 60 : ℕ) : ℚ) * (1 + min ((k : ℚ) * (1 / 10)) (1 / 2))⌋) ∧
    (∀ fs k : ℕ, 5 ≤ k → calculate_pomodoro_xp fs k = calculate_pomodoro_xp fs 5) := by
  refine ⟨by decide, by decide, by decide, ?_, ?_⟩
  · intro fs k
    unfold calculate_pomodoro_xp
    generalize fs / 60 = b
    have hdiv : ∀ a : ℕ, ((a * (10 + min k 5) / 10 : ℕ) : ℤ)
        = ((a * (10 + min k 5) : ℕ) : ℤ) / ((10 : ℕ) : ℤ) := by
      intro a
      rw [Int.ofNat_ediv]
    rcases le_total k 5 with hk | hk
    · have hkq : (k : ℚ) ≤ 5 := by exact_mod_cast hk
      rw [min_eq_left (by linarith : (k : ℚ) * (1 / 10) ≤ 1 / 2)]
      have hval : ((b : ℕ) : ℚ) * (1 + (k : ℚ) * (1 / 10))
          = (((b * (10 + k) : ℕ) : ℤ) : ℚ) / ((10 : ℕ) : ℚ) := by
        push_cast
        ring
      rw [hval, Rat.floor_intCast_div_natCast, hdiv, min_eq_left hk]
    · have hkq : (5 : ℚ) ≤ (k : ℚ) := by exact_mod_cast hk
      rw [min_eq_right (by linarith : (1 : ℚ) / 2 ≤ (k : ℚ) * (1 / 10))]
      have hval : ((b : ℕ) : ℚ) * (1 + 1 / 2)
          = (((b * (10 + 5) : ℕ) : ℤ) : ℚ) / ((10 : ℕ) : ℚ) := by
        push_cast
        ring
      rw [hval, Rat.floor_intCast_div_natCast, hdiv, min_eq_right hk]
  · intro fs k hk
    unfold calculate_pomodoro_xp
    rw [min_eq_right hk]
    norm_num

/-- Witness for C3's cap clause at `streak_days = 7`. -/
theorem c3_pomodoro_xp_spec_witness :
    calculate_pomodoro_xp 1500 7 = calculate_pomodoro_xp 1500 5 :=
  c3_pomodoro_xp_spec.2.2.2.2 1500 7 (by norm_num)

/-! ### Claim C9 -/

/-- C9: `calculate_xp_progress` is total (no division error): its level is
`calculate_level xp`, `xp_in_current_level` and `xp_needed_for_next` are the
staircase differences, `progress_percent` is `0` whenever the denominator
`xp_needed_for_next` is not positive, and otherwise equals
`round(xp_in_current_level / xp_needed_for_next * 100, 1)`. -/
theorem c9_progress_guard (xp : ℤ) :
    (calculate_xp_progress xp).level = calculate_level xp ∧
    (calculate_xp_progress xp).xp_in_current_level
      = xp - calculate_xp_for_level ((calculate_xp_progress xp).level) ∧
    (calculate_xp_progress xp).xp_needed_for_next
      = calculate_xp_for_level ((calculate_xp_progress xp).level + 1)
        - calculate_xp_for_level ((calculate_xp_progress xp).level) ∧
    ((calculate_xp_progress xp).xp_needed_for_next ≤ 0 →
      (calculate_xp_progress xp).progress_percent = 0) ∧
    (0 < (calculate_xp_progress xp).xp_needed_for_next →
      (calculate_xp_progress xp).progress_percent
        = pyRound1 (((calculate_xp_progress xp).xp_in_current_level : ℚ)
            / ((calculate_xp_progress xp).xp_needed_for_next : ℚ) * 100)) := by
  refine ⟨rfl, rfl, rfl, ?_, ?_⟩
  · intro h
    have h2 : calculate_xp_for_level (calculate_level xp + 1)
        - calculate_xp_for_level (calculate_level xp) ≤ 0 := h
    show (if 0 < calculate_xp_for_level (calculate_level xp + 1)
        - calculate_xp_for_level (calculate_level xp) then _ else (0 : ℚ)) = 0
    rw [if_neg (by omega)]
  · intro h
    have h2 : 0 < calculate_xp_for_level (calculate_level xp + 1)
        - calculate_xp_for_level (calculate_level xp) := h
    show (if 0 < calculate_xp_for_level (calculate_level xp + 1)
        - calculate_xp_for_level (calculate_level xp) then _ else (0 : ℚ)) = _
    rw [if_pos h2]
    rfl

/-- Witness for C9 at `xp = 50` (level 1, 50 of 100 XP, `progress 50.0`). -/
theorem c9_progress_guard_witness :
    0 < (calculate_xp_progress 50).xp_needed_for_next ∧
    (calculate_xp_progress 50).progress_percent
      = pyRound1 (((calculate_xp_progress 50).xp_in_current_level : ℚ)
          / ((calculate_xp_progress 50).xp_needed_for_next : ℚ) * 100) :=
  ⟨by decide, (c9_progress_guard 50).2.2.2.2 (by decide)⟩

/-! ### The string order used by `sorted(..., reverse=True)` -/

theorem lexLe_total : ∀ x y : List ℕ, lexLe x y = true ∨ lexLe y x = true := by
  intro x
  induction x with
  | nil => intro y; left; rfl
  | cons a as ih =>
      intro y
      match y with
      | [] => right; rfl
      | b :: bs =>
          show (if a < b then true else if b < a then false else lexLe as bs) = true ∨
            (if b < a then true else if a < b then false else lexLe bs as) = true
          rcases Nat.lt_trichotomy a b with h | h | h
          · left; rw [if_pos h]
          · subst h
            rcases ih bs with h2 | h2
            · left; rw [if_neg (by omega), if_neg (by omega)]; exact h2
            · right; rw [if_neg (by omega), if_neg (by omega)]; exact h2
          · right; rw [if_pos h]

theorem lexLe_trans : ∀ x y z : List ℕ,
    lexLe x y = true → lexLe y z = true → lexLe x z = true := by
  intro x
  induction x with
  | nil => intro y z _ _; rfl
  | cons a as ih =>
      intro y z hxy hyz
      match y, z with
      | [], _ => exact absurd hxy (by simp [lexLe])
      | b :: bs, [] => exact absurd hyz (by simp [lexLe])
      | b :: bs, c :: cs =>
          show (if a < c then true else if c < a then false else lexLe as cs) = true
          have hxy2 : (if a < b then true else if b < a then false else lexLe as bs) = true := hxy
          have hyz2 : (if b < c then true else if c < b then false else lexLe bs cs) = true := hyz
          rcases Nat.lt_trichotomy a b with hab | hab | hab
          · rcases Nat.lt_trichotomy b c with hbc | hbc | hbc
            · rw [if_pos (by omega)]
            · rw [if_pos (by omega)]
            · rw [if_neg (by omega), if_pos (by omega)] at hyz2
              simp at hyz2
          · subst hab
            rcases Nat.lt_trichotomy a c with hac | hac | hac
            · rw [if_pos hac]
            · subst hac
              rw [if_neg (by omega), if_neg (by omega)] at hxy2 hyz2 ⊢
              exact ih bs cs hxy2 hyz2
            · rw [if_neg (by omega), if_pos (by omega)] at hyz2
              simp at hyz2
          · rw [if_neg (by omega), if_pos (by omega)] at hxy2
            simp at hxy2

theorem lexLe_antisymm : ∀ x y : List ℕ,
    lexLe x y = true → lexLe y x = true → x = y := by
  intro x
  induction x with
  | nil =>
      intro y _ hyx
      match y with
      | [] => rfl
      | b :: bs => exact absurd hyx (by simp [lexLe])
  | cons a as ih =>
      intro y hxy hyx
      match y with
      | [] => exact absurd hxy (by simp [lexLe])
      | b :: bs =>
          have hxy2 : (if a < b then true else if b < a then false else lexLe as bs) = true := hxy
          have hyx2 : (if b < a then true else if a < b then false else lexLe bs as) = true := hyx
          rcases Nat.lt_trichotomy a b with hab | hab | hab
          · rw [if_neg (by omega), if_pos (by omega)] at hyx2
            simp at hyx2
          · subst hab
            rw [if_neg (by omega), if_neg (by omega)] at hxy2 hyx2
            rw [ih bs hxy2 hyx2]
          · rw [if_neg (by omega), if_pos (by omega)] at hxy2
            simp at hxy2

instance : IsTotal String descOrder :=
  ⟨fun a b => lexLe_total (codes b) (codes a)⟩

instance : IsTrans String descOrder :=
  ⟨fun _ _ _ hab hbc => lexLe_trans _ _ _ hbc hab⟩

theorem codes_injective {a b : String} (h : codes a = codes b) : a = b := by
  unfold codes at h
  have hinj : Function.Injective Char.toNat := by
    intro c d hcd
    have h1 := Char.ofNat_toNat c
    have h2 := Char.ofNat_toNat d
    rw [← h1, ← h2, hcd]
  exact String.toList_inj.mp (List.map_injective_iff.mpr hinj h)

theorem strLe_antisymm {a b : String} (h1 : strLe a b) (h2 : strLe b a) : a = b :=
  codes_injective (lexLe_antisymm _ _ h1 h2)

/-! ### Claim C5 -/

/-- C5: the gap example gives streak 1, the consecutive example gives 3, the
empty collection gives 0, and whenever the most recent distinct date (the
maximum under Python's string order, which on `YYYY-MM-DD` dates coincides
with chronological order) is more than one calendar day before `today`, the
streak is 0. -/
theorem c5_streak_cases :
    calculate_streak [d1125, d1127, d1129] d1129 = 1 ∧
    calculate_streak [d1127, d1128, d1129] d1129 = 3 ∧
    (∀ today, calculate_streak [] today = 0) ∧
    (∀ (dates : List String) (today mx : String), mx ∈ dates →
      (∀ x ∈ dates, strLe x mx) → 1 < dateOf today - dateOf mx →
      calculate_streak dates today = 0) := by
  refine ⟨by decide, by decide, fun today => rfl, ?_⟩
  intro dates today mx hmem hmax hgap
  unfold calculate_streak
  rw [if_neg (by rintro rfl; exact absurd hmem (by simp))]
  obtain ⟨h0, rest, hL⟩ :
      ∃ h0 rest, (dates.dedup).insertionSort descOrder = h0 :: rest := by
    rcases hE : (dates.dedup).insertionSort descOrder with _ | ⟨h0, rest⟩
    · exfalso
      have hp := List.perm_insertionSort descOrder dates.dedup
      rw [hE] at hp
      have hnil : dates.dedup = [] := hp.symm.eq_nil
      exact absurd (List.mem_dedup.mpr hmem) (by simp [hnil])
    · exact ⟨h0, rest, rfl⟩
  have hperm := List.perm_insertionSort descOrder dates.dedup
  have hsorted := List.sorted_insertionSort descOrder dates.dedup
  rw [hL] at hperm hsorted
  have hh0 : h0 = mx := by
    have hh0mem : h0 ∈ dates := by
      have hd : h0 ∈ dates.dedup := hperm.mem_iff.mp (by simp)
      exact List.mem_dedup.mp hd
    have h1 : strLe h0 mx := hmax h0 hh0mem
    have hmxL : mx ∈ h0 :: rest := hperm.mem_iff.mpr (List.mem_dedup.mpr hmem)
    rcases List.mem_cons.mp hmxL with he | hr
    · exact he.symm
    · have h2 : strLe mx h0 := List.rel_of_sorted_cons hsorted mx hr
      exact strLe_antisymm h1 h2
  rw [hL, hh0]
  simp only []
  rw [if_pos hgap]

/-- Witness for C5's gap clause: a single old session eight days before today. -/
theorem c5_streak_cases_witness : calculate_streak [d1120] d1129 = 0 :=
  c5_streak_cases.2.2.2 [d1120] d1129 d1120 (by decide) (by decide) (by decide)

/-! ### Claim C10 -/

/-- C10: the read-only queries `get_weekly_stats`, `get_monthly_stats`,
`get_xp_progress` and `to_dict` (in their state-threaded forms) return the
tracker state unchanged: no field assignment occurs in their bodies and the
day map is read only through the non-inserting lookup. -/
theorem c10_queries_pure (t : GamificationTracker) (today : String) :
    (get_weekly_statsM t today).2 = t ∧
    (get_monthly_statsM t today).2 = t ∧
    (get_xp_progressM t).2 = t ∧
    (to_dictM t today).2 = t :=
  ⟨rfl, rfl, rfl, rfl⟩

/-! ### Frame lemmas for the badge-award chain -/

theorem awardIf_fst_total_xp (st : GamificationTracker × List Badge) (c : Prop)
    [Decidable c] (bt : BadgeType) (d : String) :
    (awardIf st c bt d).1.total_xp = st.1.total_xp := by
  unfold awardIf
  split <;> rfl

theorem awardIf_fst_total_focus (st : GamificationTracker × List Badge) (c : Prop)
    [Decidable c] (bt : BadgeType) (d : String) :
    (awardIf st c bt d).1.total_focus_seconds = st.1.total_focus_seconds := by
  unfold awardIf
  split <;> rfl

theorem awardIf_fst_daily_stats (st : GamificationTracker × List Badge) (c : Prop)
    [Decidable c] (bt : BadgeType) (d : String) :
    (awardIf st c bt d).1.daily_stats = st.1.daily_stats := by
  unfold awardIf
  split <;> rfl

theorem checkBadges_fst_total_xp (t : GamificationTracker) (today : String) :
    (checkBadges t today).1.total_xp = t.total_xp := by
  simp only [checkBadges, awardIf_fst_total_xp]

theorem checkBadges_fst_total_focus (t : GamificationTracker) (today : String) :
    (checkBadges t today).1.total_focus_seconds = t.total_focus_seconds := by
  simp only [checkBadges, awardIf_fst_total_focus]

theorem checkBadges_fst_daily_stats (t : GamificationTracker) (today : String) :
    (checkBadges t today).1.daily_stats = t.daily_stats := by
  simp only [checkBadges, awardIf_fst_daily_stats]

/-- Shorthand for the streak value `record_pomodoro` uses for the bonus. -/
def bonusStreak (t : GamificationTracker) (today : String) : ℕ :=
  calculate_streak (statsKeys (getOrCreateDailyStats t.daily_stats today)) today

theorem record_fst_total_xp (t : GamificationTracker) (today : String) (fs : ℕ) :
    (record_pomodoro t today fs).1.total_xp
      = t.total_xp + calculate_pomodoro_xp fs (bonusStreak t today) := by
  simp only [record_pomodoro, bonusStreak, checkBadges_fst_total_xp]

theorem record_fst_total_focus (t : GamificationTracker) (today : String) (fs : ℕ) :
    (record_pomodoro t today fs).1.total_focus_seconds
      = t.total_focus_seconds + fs := by
  simp only [record_pomodoro, checkBadges_fst_total_focus]

/-- The three `stats.<field> += ...` statements of `record_pomodoro`. -/
def bumpStats (st : DailyStats) (fs xp : ℕ) : DailyStats :=
  { st with
      completed_pomodoros := st.completed_pomodoros + 1
      total_focus_seconds := st.total_focus_seconds + fs
      xp_earned := st.xp_earned + xp }

theorem record_fst_daily_stats (t : GamificationTracker) (today : String) (fs : ℕ) :
    (record_pomodoro t today fs).1.daily_stats
      = updateStat (getOrCreateDailyStats t.daily_stats today) today
          (bumpStats
            ((lookupStat (getOrCreateDailyStats t.daily_stats today) today).getD
              (DailyStats.fresh today))
            fs (calculate_pomodoro_xp fs (bonusStreak t today))) := by
  simp only [record_pomodoro, bonusStreak, checkBadges_fst_daily_stats]
  rfl

/-! ### Sum lemmas for the day map -/

theorem lookupStat_append_self (m : StatsMap) (d : String) (v : DailyStats)
    (h : lookupStat m d = none) : lookupStat (m ++ [(d, v)]) d = some v := by
  induction m with
  | nil => simp [lookupStat]
  | cons p rest ih =>
      obtain ⟨k, w⟩ := p
      by_cases hk : d = k
      · exfalso
        simp [lookupStat, hk] at h
      · show lookupStat ((k, w) :: (rest ++ [(d, v)])) d = some v
        simp only [lookupStat, if_neg hk]
        exact ih (by simpa [lookupStat, if_neg hk] using h)

theorem lookupStat_getOrCreate (m : StatsMap) (d : String) :
    ∃ st, lookupStat (getOrCreateDailyStats m d) d = some st := by
  unfold getOrCreateDailyStats
  split
  · rename_i h
    rcases Option.isSome_iff_exists.mp h with ⟨st, hst⟩
    exact ⟨st, hst⟩
  · rename_i h
    refine ⟨DailyStats.fresh d, lookupStat_append_self m d _ ?_⟩
    rcases hE : lookupStat m d with _ | st
    · rfl
    · rw [hE] at h
      simp at h

theorem sum_map_append (f : DailyStats → ℕ) (m : StatsMap) (e : String × DailyStats) :
    ((m ++ [e]).map fun p => f p.2).sum = (m.map fun p => f p.2).sum + f e.2 := by
  simp

theorem sum_map_updateStat (f : DailyStats → ℕ) (k : String) (st2 : DailyStats) :
    ∀ (m : StatsMap) (st : DailyStats), lookupStat m k = some st →
      ((updateStat m k st2).map fun p => f p.2).sum + f st
        = (m.map fun p => f p.2).sum + f st2 := by
  intro m
  induction m with
  | nil => intro st h; simp [lookupStat] at h
  | cons p rest ih =>
      intro st h
      obtain ⟨k0, v⟩ := p
      by_cases hk : k = k0
      · have hv : v = st := by simpa [lookupStat, hk] using h
        subst hv
        simp only [updateStat, if_pos hk, List.map_cons, List.sum_cons]
        omega
      · simp only [updateStat, if_neg hk, List.map_cons, List.sum_cons]
        have hrec := ih st (by simpa [lookupStat, if_neg hk] using h)
        omega

theorem sumXp_getOrCreate (m : StatsMap) (d : String) :
    sumXp (getOrCreateDailyStats m d) = sumXp m := by
  unfold getOrCreateDailyStats
  split
  · rfl
  · simp [sumXp, DailyStats.fresh]

theorem sumFocus_getOrCreate (m : StatsMap) (d : String) :
    sumFocus (getOrCreateDailyStats m d) = sumFocus m := by
  unfold getOrCreateDailyStats
  split
  · rfl
  · simp [sumFocus, DailyStats.fresh]

theorem sumXp_updateStat (k : String) (st2 : DailyStats) (m : StatsMap)
    (st : DailyStats) (h : lookupStat m k = some st) :
    sumXp (updateStat m k st2) + st.xp_earned = sumXp m + st2.xp_earned :=
  sum_map_updateStat (fun s => s.xp_earned) k st2 m st h

theorem sumFocus_updateStat (k : String) (st2 : DailyStats) (m : StatsMap)
    (st : DailyStats) (h : lookupStat m k = some st) :
    sumFocus (updateStat m k st2) + st.total_focus_seconds
      = sumFocus m + st2.total_focus_seconds :=
  sum_map_updateStat (fun s => s.total_focus_seconds) k st2 m st h

theorem record_inv (t : GamificationTracker) (today : String) (fs : ℕ)
    (h1 : t.total_xp = sumXp t.daily_stats)
    (h2 : t.total_focus_seconds = sumFocus t.daily_stats) :
    (record_pomodoro t today fs).1.total_xp
        = sumXp (record_pomodoro t today fs).1.daily_stats ∧
    (record_pomodoro t today fs).1.total_focus_seconds
        = sumFocus (record_pomodoro t today fs).1.daily_stats := by
  obtain ⟨st, hst⟩ := lookupStat_getOrCreate t.daily_stats today
  rw [record_fst_total_xp, record_fst_total_focus, record_fst_daily_stats]
  rw [hst]
  simp only [Option.getD_some]
  constructor
  · have hupd := sumXp_updateStat today
      (bumpStats st fs (calculate_pomodoro_xp fs (bonusStreak t today)))
      (getOrCreateDailyStats t.daily_stats today) st hst
    have hgoc := sumXp_getOrCreate t.daily_stats today
    have hlit : (bumpStats st fs (calculate_pomodoro_xp fs (bonusStreak t today))).xp_earned
        = st.xp_earned + calculate_pomodoro_xp fs (bonusStreak t today) := rfl
    omega
  · have hupd := sumFocus_updateStat today
      (bumpStats st fs (calculate_pomodoro_xp fs (bonusStreak t today)))
      (getOrCreateDailyStats t.daily_stats today) st hst
    have hgoc := sumFocus_getOrCreate t.daily_stats today
    have hlit : (bumpStats st fs
          (calculate_pomodoro_xp fs (bonusStreak t today))).total_focus_seconds
        = st.total_focus_seconds + fs := rfl
    omega

theorem runCalls_cons (t : GamificationTracker) (d : String) (fs : ℕ)
    (rest : List (String × ℕ)) :
    runCalls t ((d, fs) :: rest) = runCalls (record_pomodoro t d fs).1 rest := by
  simp only [runCalls, List.foldl_cons]

theorem runCalls_inv : ∀ (calls : List (String × ℕ)) (t : GamificationTracker),
    t.total_xp = sumXp t.daily_stats →
    t.total_focus_seconds = sumFocus t.daily_stats →
    (runCalls t calls).total_xp = sumXp (runCalls t calls).daily_stats ∧
    (runCalls t calls).total_focus_seconds = sumFocus (runCalls t calls).daily_stats := by
  intro calls
  induction calls with
  | nil => intro t h1 h2; exact ⟨h1, h2⟩
  | cons c rest ih =>
      intro t h1 h2
      obtain ⟨d, fs⟩ := c
      have hrec := record_inv t d fs h1 h2
      rw [runCalls_cons]
      exact ih (record_pomodoro t d fs).1 hrec.1 hrec.2

/-! ### Claim C7 -/

/-- C7: after every sequence of `record_pomodoro` calls starting from the
fresh tracker, the total XP equals the sum of the per-day `xp_earned` fields
and the total focus-seconds equals the sum of the per-day focus-seconds
fields (the empty call list gives the initial state). -/
theorem c7_totals_invariant (calls : List (String × ℕ)) :
    (runCalls GamificationTracker.start calls).total_xp
        = sumXp (runCalls GamificationTracker.start calls).daily_stats ∧
    (runCalls GamificationTracker.start calls).total_focus_seconds
        = sumFocus (runCalls GamificationTracker.start calls).daily_stats :=
  runCalls_inv calls GamificationTracker.start rfl rfl

/-! ### Badge idempotence -/

theorem hasBadge_eq_false_iff (t : GamificationTracker) (bt : BadgeType) :
    hasBadge t bt = false ↔ bt ∉ t.badges.map Badge.badge_type := by
  simp [hasBadge, List.any_eq_true]

theorem awardIf_fst_badges_nodup (st : GamificationTracker × List Badge) (c : Prop)
    [Decidable c] (bt : BadgeType) (d : String)
    (h : (st.1.badges.map Badge.badge_type).Nodup) :
    ((awardIf st c bt d).1.badges.map Badge.badge_type).Nodup := by
  unfold awardIf
  split
  · rename_i hc
    have hnotin : bt ∉ st.1.badges.map Badge.badge_type :=
      (hasBadge_eq_false_iff st.1 bt).mp hc.2
    simp only [List.map_append, List.map_cons, List.map_nil]
    rw [List.nodup_append]
    exact ⟨h, List.nodup_singleton bt, by simpa [List.Disjoint] using hnotin⟩
  · exact h

theorem checkBadges_badges_nodup (t : GamificationTracker) (today : String)
    (h : (t.badges.map Badge.badge_type).Nodup) :
    ((checkBadges t today).1.badges.map Badge.badge_type).Nodup := by
  simp only [checkBadges]
  iterate 11 apply awardIf_fst_badges_nodup
  exact h

theorem record_badges_nodup (t : GamificationTracker) (today : String) (fs : ℕ)
    (h : (t.badges.map Badge.badge_type).Nodup) :
    (((record_pomodoro t today fs).1).badges.map Badge.badge_type).Nodup := by
  simp only [record_pomodoro]
  apply checkBadges_badges_nodup
  exact h

/-! ### Claim C6 -/

theorem runCalls_badges_nodup : ∀ (calls : List (String × ℕ)) (t : GamificationTracker),
    (t.badges.map Badge.badge_type).Nodup →
    ((runCalls t calls).badges.map Badge.badge_type).Nodup := by
  intro calls
  induction calls with
  | nil => intro t h; exact h
  | cons c rest ih =>
      intro t h
      obtain ⟨d, fs⟩ := c
      rw [runCalls_cons]
      exact ih (record_pomodoro t d fs).1 (record_badges_nodup t d fs h)

/-- C6: after every sequence of `record_pomodoro` calls starting from the
fresh tracker, no badge kind appears twice in the tracker's badge list: every
award is guarded by `_has_badge`, so each kind is awarded at most once. -/
theorem c6_badge_kinds_nodup (calls : List (String × ℕ)) :
    ((runCalls GamificationTracker.start calls).badges.map Badge.badge_type).Nodup :=
  runCalls_badges_nodup calls GamificationTracker.start List.nodup_nil

/-! ### Evaluating `record_pomodoro` on a fresh tracker -/

theorem record_xp_earned (t : GamificationTracker) (today : String) (fs : ℕ) :
    (record_pomodoro t today fs).2.xp_earned
      = calculate_pomodoro_xp fs (bonusStreak t today) := by
  simp only [record_pomodoro, bonusStreak]

theorem record_new_badges (t : GamificationTracker) (today : String) (fs : ℕ) :
    (record_pomodoro t today fs).2.new_badges
      = (checkBadges
          { total_xp := t.total_xp + calculate_pomodoro_xp fs (bonusStreak t today)
            total_focus_seconds := t.total_focus_seconds + fs
            badges := t.badges
            daily_stats := updateStat (getOrCreateDailyStats t.daily_stats today) today
              (bumpStats ((lookupStat (getOrCreateDailyStats t.daily_stats today) today).getD
                  (DailyStats.fresh today)) fs
                (calculate_pomodoro_xp fs (bonusStreak t today))) } today).2 := by
  simp only [record_pomodoro, bonusStreak, bumpStats]

theorem calculate_streak_single_self (s : String) : calculate_streak [s] s = 1 := by
  unfold calculate_streak
  rw [if_neg (by simp)]
  have hd : ([s] : List String).dedup = [s] := by simp
  rw [hd]
  simp only [List.insertionSort, List.orderedInsert]
  rw [if_neg (by omega)]
  simp [countConsec]

theorem getOrCreateDailyStats_nil (d : String) :
    getOrCreateDailyStats [] d = [(d, DailyStats.fresh d)] := by
  simp [getOrCreateDailyStats, lookupStat]

theorem bonusStreak_start (today : String) :
    bonusStreak GamificationTracker.start today = 1 := by
  unfold bonusStreak
  rw [show GamificationTracker.start.daily_stats = [] from rfl, getOrCreateDailyStats_nil]
  show calculate_streak [today] today = 1
  exact calculate_streak_single_self today

theorem awardIf_of_neg (st : GamificationTracker × List Badge) (c : Prop) [Decidable c]
    (bt : BadgeType) (d : String) (h : ¬ c) : awardIf st c bt d = st := by
  unfold awardIf
  rw [if_neg (by tauto)]

theorem awardIf_of_pos (st : GamificationTracker × List Badge) (c : Prop) [Decidable c]
    (bt : BadgeType) (d : String) (hc : c) (hb : hasBadge st.1 bt = false) :
    awardIf st c bt d
      = ({ st.1 with badges := st.1.badges ++ [⟨bt, d⟩] }, st.2 ++ [⟨bt, d⟩]) := by
  unfold awardIf
  rw [if_pos ⟨hc, hb⟩]

theorem awardIf_snd_head_some (st : GamificationTracker × List Badge) (c : Prop)
    [Decidable c] (bt : BadgeType) (d : String) (b : Badge)
    (h : st.2.head? = some b) : (awardIf st c bt d).2.head? = some b := by
  unfold awardIf
  split
  · cases hE : st.2 with
    | nil => rw [hE] at h; simp at h
    | cons x rest =>
        rw [hE] at h
        simpa using h
  · exact h

theorem checkBadges_single (today : String) (xp fs : ℕ) (st2 : DailyStats)
    (hpom : st2.completed_pomodoros = 1)
    (hlev : calculate_level ((xp : ℕ) : ℤ) < 5)
    (hfoc : fs < 360000) :
    checkBadges ⟨xp, fs, [], [(today, st2)]⟩ today
      = (⟨xp, fs, [⟨.first_pomodoro, today⟩], [(today, st2)]⟩,
         [⟨.first_pomodoro, today⟩]) := by
  have hstreak : streakDays
      (⟨xp, fs, [⟨.first_pomodoro, today⟩], [(today, st2)]⟩ : GamificationTracker) today = 1 := by
    show calculate_streak [today] today = 1
    exact calculate_streak_single_self today
  have hweek : getWeeklyPomodoros
      (⟨xp, fs, [⟨.first_pomodoro, today⟩], [(today, st2)]⟩ : GamificationTracker) today ≤ 1 := by
    simp only [getWeeklyPomodoros, List.foldl_cons, List.foldl_nil]
    split
    · omega
    · omega
  have hmonth : getMonthlyPomodoros
      (⟨xp, fs, [⟨.first_pomodoro, today⟩], [(today, st2)]⟩ : GamificationTracker) today ≤ 1 := by
    simp only [getMonthlyPomodoros, List.foldl_cons, List.foldl_nil]
    split
    · omega
    · omega
  have hns3 : ¬ (3 ≤ streakDays
      (⟨xp, fs, [⟨.first_pomodoro, today⟩], [(today, st2)]⟩ : GamificationTracker) today) := by
    omega
  have hns7 : ¬ (7 ≤ streakDays
      (⟨xp, fs, [⟨.first_pomodoro, today⟩], [(today, st2)]⟩ : GamificationTracker) today) := by
    omega
  have hns30 : ¬ (30 ≤ streakDays
      (⟨xp, fs, [⟨.first_pomodoro, today⟩], [(today, st2)]⟩ : GamificationTracker) today) := by
    omega
  have hnw10 : ¬ (10 ≤ getWeeklyPomodoros
      (⟨xp, fs, [⟨.first_pomodoro, today⟩], [(today, st2)]⟩ : GamificationTracker) today) := by
    omega
  have hnw25 : ¬ (25 ≤ getWeeklyPomodoros
      (⟨xp, fs, [⟨.first_pomodoro, today⟩], [(today, st2)]⟩ : GamificationTracker) today) := by
    omega
  have hnm50 : ¬ (50 ≤ getMonthlyPomodoros
      (⟨xp, fs, [⟨.first_pomodoro, today⟩], [(today, st2)]⟩ : GamificationTracker) today) := by
    omega
  have hnm100 : ¬ (100 ≤ getMonthlyPomodoros
      (⟨xp, fs, [⟨.first_pomodoro, today⟩], [(today, st2)]⟩ : GamificationTracker) today) := by
    omega
  have hnl5 : ¬ ((5 : ℤ) ≤ calculate_level ((xp : ℕ) : ℤ)) := by omega
  have hnl10 : ¬ ((10 : ℤ) ≤ calculate_level ((xp : ℕ) : ℤ)) := by omega
  have hnf : ¬ (360000 ≤ fs) := by omega
  simp only [checkBadges]
  rw [awardIf_of_pos (⟨xp, fs, [], [(today, st2)]⟩, ([] : List Badge))
    (1 ≤ sumPomodoros (⟨xp, fs, [], [(today, st2)]⟩ : GamificationTracker).daily_stats)
    .first_pomodoro today (by simp [sumPomodoros]; omega) rfl]
  simp only [List.nil_append]
  simp only [awardIf_of_neg _ _ BadgeType.streak_3 today hns3,
    awardIf_of_neg _ _ BadgeType.streak_7 today hns7,
    awardIf_of_neg _ _ BadgeType.streak_30 today hns30,
    awardIf_of_neg _ _ BadgeType.weekly_10 today hnw10,
    awardIf_of_neg _ _ BadgeType.weekly_25 today hnw25,
    awardIf_of_neg _ _ BadgeType.monthly_50 today hnm50,
    awardIf_of_neg _ _ BadgeType.monthly_100 today hnm100,
    awardIf_of_neg _ _ BadgeType.level_5 today hnl5,
    awardIf_of_neg _ _ BadgeType.level_10 today hnl10,
    awardIf_of_neg _ _ BadgeType.focus_master today hnf]

theorem checkBadges_single_head (today : String) (xp fs : ℕ) (st2 : DailyStats)
    (hpom : st2.completed_pomodoros = 1) :
    (checkBadges ⟨xp, fs, [], [(today, st2)]⟩ today).2.head?
      = some ⟨.first_pomodoro, today⟩ := by
  have hstreak : streakDays
      (⟨xp, fs, [⟨.first_pomodoro, today⟩], [(today, st2)]⟩ : GamificationTracker) today = 1 := by
    show calculate_streak [today] today = 1
    exact calculate_streak_single_self today
  have hweek : getWeeklyPomodoros
      (⟨xp, fs, [⟨.first_pomodoro, today⟩], [(today, st2)]⟩ : GamificationTracker) today ≤ 1 := by
    simp only [getWeeklyPomodoros, List.foldl_cons, List.foldl_nil]
    split
    · omega
    · omega
  have hmonth : getMonthlyPomodoros
      (⟨xp, fs, [⟨.first_pomodoro, today⟩], [(today, st2)]⟩ : GamificationTracker) today ≤ 1 := by
    simp only [getMonthlyPomodoros, List.foldl_cons, List.foldl_nil]
    split
    · omega
    · omega
  have hns3 : ¬ (3 ≤ streakDays
      (⟨xp, fs, [⟨.first_pomodoro, today⟩], [(today, st2)]⟩ : GamificationTracker) today) := by
    omega
  have hns7 : ¬ (7 ≤ streakDays
      (⟨xp, fs, [⟨.first_pomodoro, today⟩], [(today, st2)]⟩ : GamificationTracker) today) := by
    omega
  have hns30 : ¬ (30 ≤ streakDays
      (⟨xp, fs, [⟨.first_pomodoro, today⟩], [(today, st2)]⟩ : GamificationTracker) today) := by
    omega
  have hnw10 : ¬ (10 ≤ getWeeklyPomodoros
      (⟨xp, fs, [⟨.first_pomodoro, today⟩], [(today, st2)]⟩ : GamificationTracker) today) := by
    omega
  have hnw25 : ¬ (25 ≤ getWeeklyPomodoros
      (⟨xp, fs, [⟨.first_pomodoro, today⟩], [(today, st2)]⟩ : GamificationTracker) today) := by
    omega
  have hnm50 : ¬ (50 ≤ getMonthlyPomodoros
      (⟨xp, fs, [⟨.first_pomodoro, today⟩], [(today, st2)]⟩ : GamificationTracker) today) := by
    omega
  have hnm100 : ¬ (100 ≤ getMonthlyPomodoros
      (⟨xp, fs, [⟨.first_pomodoro, today⟩], [(today, st2)]⟩ : GamificationTracker) today) := by
    omega
  simp only [checkBadges]
  rw [awardIf_of_pos (⟨xp, fs, [], [(today, st2)]⟩, ([] : List Badge))
    (1 ≤ sumPomodoros (⟨xp, fs, [], [(today, st2)]⟩ : GamificationTracker).daily_stats)
    .first_pomodoro today (by simp [sumPomodoros]; omega) rfl]
  simp only [List.nil_append]
  simp only [awardIf_of_neg _ _ BadgeType.streak_3 today hns3,
    awardIf_of_neg _ _ BadgeType.streak_7 today hns7,
    awardIf_of_neg _ _ BadgeType.streak_30 today hns30,
    awardIf_of_neg _ _ BadgeType.weekly_10 today hnw10,
    awardIf_of_neg _ _ BadgeType.weekly_25 today hnw25,
    awardIf_of_neg _ _ BadgeType.monthly_50 today hnm50,
    awardIf_of_neg _ _ BadgeType.monthly_100 today hnm100]
  apply awardIf_snd_head_some
  apply awardIf_snd_head_some
  apply awardIf_snd_head_some
  rfl

/-! ### Claim C2 -/

/-- C2 (counterexample): on a fresh tracker, a single `record_pomodoro` call
with `focus_seconds = 42000` earns 770 XP (level 5), so the first call
returns two badges (FIRST_POMODORO and LEVEL_5), not exactly one. -/
theorem c2_counterexample :
    (record_pomodoro GamificationTracker.start d1129 42000).2.new_badges.length ≠ 1 := by
  decide

/-- C2 (amended): the first `record_pomodoro` call on a fresh tracker always
returns FIRST_POMODORO as its first new badge; the list is exactly
`[FIRST_POMODORO]` whenever the session stays below the LEVEL_5 threshold
(`focus_seconds / 60 ≤ 636`, i.e. earned XP < 700) and below the
FOCUS_MASTER threshold (`focus_seconds < 360000`). -/
theorem c2_first_badge (today : String) (fs : ℕ) :
    ((record_pomodoro GamificationTracker.start today fs).2.new_badges.map
        Badge.badge_type).head? = some BadgeType.first_pomodoro ∧
    (fs / 60 ≤ 636 → fs < 360000 →
      (record_pomodoro GamificationTracker.start today fs).2.new_badges.map
        Badge.badge_type = [BadgeType.first_pomodoro]) := by
  have hnb := record_new_badges GamificationTracker.start today fs
  rw [bonusStreak_start] at hnb
  simp only [GamificationTracker.start] at hnb
  rw [getOrCreateDailyStats_nil] at hnb
  have hlk : lookupStat [(today, DailyStats.fresh today)] today
      = some (DailyStats.fresh today) := by simp [lookupStat]
  rw [hlk] at hnb
  simp only [Option.getD_some] at hnb
  have hbump : bumpStats (DailyStats.fresh today) fs (calculate_pomodoro_xp fs 1)
      = ⟨today, 1, fs, calculate_pomodoro_xp fs 1⟩ := by
    simp [bumpStats, DailyStats.fresh]
  rw [hbump] at hnb
  have hupd : updateStat [(today, DailyStats.fresh today)] today
      (⟨today, 1, fs, calculate_pomodoro_xp fs 1⟩ : DailyStats)
      = [(today, ⟨today, 1, fs, calculate_pomodoro_xp fs 1⟩)] := by
    simp [updateStat]
  rw [hupd] at hnb
  simp only [Nat.zero_add] at hnb
  simp only [GamificationTracker.start]
  constructor
  · rw [hnb, List.head?_map, checkBadges_single_head today _ _ _ rfl]
    rfl
  · intro hb hf
    have hlev : calculate_level ((calculate_pomodoro_xp fs 1 : ℕ) : ℤ) < 5 := by
      have hxp_le : calculate_pomodoro_xp fs 1 ≤ 699 := by
        unfold calculate_pomodoro_xp
        have hm : (10 + min 1 5) = 11 := by norm_num
        rw [hm]
        have h1 : fs / 60 * 11 ≤ 6996 := by omega
        calc fs / 60 * 11 / 10 ≤ 6996 / 10 := Nat.div_le_div_right h1
          _ = 699 := by norm_num
      have h4 := calculate_level_le (calculate_pomodoro_xp fs 1) 4 (by
        have hs : stairs 4 = 700 := by norm_num [stairs]
        omega)
      omega
    rw [hnb, checkBadges_single today _ _ _ rfl hlev hf]
    rfl

/-- Witness for C2's amended bound clause at `today = 2025-11-29`,
`focus_seconds = 1500`. -/
theorem c2_first_badge_witness :
    (record_pomodoro GamificationTracker.start d1129 1500).2.new_badges.map
        Badge.badge_type = [BadgeType.first_pomodoro] :=
  (c2_first_badge d1129 1500).2 (by norm_num) (by norm_num)

/-! ### Claim C1 -/

/-- C1 (counterexample): the claim says the bonus streak of the first call on
a fresh tracker is computed from the pre-call key set without today
(`calculate_streak [] today = 0`, hence 25 XP for a 1500-second session),
but the code inserts today's key first and earns 27 XP (streak 1). -/
theorem c1_counterexample :
    (record_pomodoro GamificationTracker.start d1129 1500).2.xp_earned = 27 ∧
    calculate_pomodoro_xp 1500
      (calculate_streak (statsKeys GamificationTracker.start.daily_stats) d1129) = 25 := by
  constructor
  · decide
  · decide

/-- C1 (amended): the streak used for the XP bonus is computed from the
pre-call date-key set with today's key included: today's entry is created
before the streak computation, so when today is a new day the bonus streak is
`calculate_streak` of the old key set with today appended (and a fresh
tracker's first session therefore uses streak 1, not 0). -/
theorem c1_bonus_streak (t : GamificationTracker) (today : String) (fs : ℕ) :
    (record_pomodoro t today fs).2.xp_earned
      = calculate_pomodoro_xp fs (calculate_streak
          (if (lookupStat t.daily_stats today).isSome then statsKeys t.daily_stats
           else statsKeys t.daily_stats ++ [today]) today) := by
  have hkeys : statsKeys (getOrCreateDailyStats t.daily_stats today)
      = (if (lookupStat t.daily_stats today).isSome then statsKeys t.daily_stats
         else statsKeys t.daily_stats ++ [today]) := by
    unfold getOrCreateDailyStats
    by_cases h : (lookupStat t.daily_stats today).isSome
    · rw [if_pos h, if_pos h]
    · rw [if_neg h, if_neg h]
      simp [statsKeys]
  rw [record_xp_earned]
  unfold bonusStreak
  rw [hkeys]

/-! ### Claim C8 -/

theorem weeklyStep_foldl (t : GamificationTracker) (ws td : ℤ) :
    ∀ (l : List ℕ) (a : List DayEntry) (x y : ℕ),
      l.foldl (weeklyStep t ws td) (a, x, y)
        = (a ++ l.map (weeklyEntry t ws),
           x + ((l.filter fun (i : ℕ) => decide (ws + (i : ℤ) ≤ td)).map
              fun i => (weeklyDayStat t ws i).completed_pomodoros).sum,
           y + ((l.filter fun (i : ℕ) => decide (ws + (i : ℤ) ≤ td)).map
              fun i => (weeklyDayStat t ws i).total_focus_seconds).sum) := by
  intro l
  induction l with
  | nil => intro a x y; simp
  | cons i rest ih =>
      intro a x y
      rw [List.foldl_cons]
      by_cases hc : ws + (i : ℤ) ≤ td
      · have hstep : weeklyStep t ws td (a, x, y) i
            = (a ++ [weeklyEntry t ws i],
               x + (weeklyDayStat t ws i).completed_pomodoros,
               y + (weeklyDayStat t ws i).total_focus_seconds) := by
          unfold weeklyStep
          rw [if_pos hc]
        rw [hstep, ih]
        simp [List.filter_cons, hc, Nat.add_assoc]
      · have hstep : weeklyStep t ws td (a, x, y) i
            = (a ++ [weeklyEntry t ws i], x, y) := by
          unfold weeklyStep
          rw [if_neg hc]
        rw [hstep, ih]
        simp [List.filter_cons, hc]

theorem range7_filter_le (k : ℕ) (hk : k < 7) :
    (List.range 7).filter (fun i => decide (i ≤ k)) = List.range (k + 1) := by
  interval_cases k <;> decide

/-- C8: `get_weekly_stats` always produces exactly 7 daily entries whose
dates are the Monday-through-Sunday window of the week containing today
(`weekStartOf` is a Monday, weekday 0); entries whose date has no recorded
sessions report zero counts; and the two totals sum exactly the days up to
and including today (`weekday + 1` many), excluding the future days of the
week. -/
theorem c8_weekly_shape (t : GamificationTracker) (today : String) :
    (get_weekly_stats t today).daily_data.length = 7 ∧
    (get_weekly_stats t today).daily_data.map DayEntry.date
      = (List.range 7).map (fun (i : ℕ) => isoformat (civilFromDays (weekStartOf today + (i : ℤ)))) ∧
    weekdayOf (weekStartOf today) = 0 ∧
    (∀ e ∈ (get_weekly_stats t today).daily_data,
      lookupStat t.daily_stats e.date = none →
        e.completed_pomodoros = 0 ∧ e.focus_minutes = 0) ∧
    (get_weekly_stats t today).total_pomodoros
      = ((List.range ((weekdayOf (dateOf today)).toNat + 1)).map
          (fun i => (weeklyDayStat t (weekStartOf today) i).completed_pomodoros)).sum ∧
    (get_weekly_stats t today).total_focus_minutes
      = ((List.range ((weekdayOf (dateOf today)).toNat + 1)).map
          (fun i => (weeklyDayStat t (weekStartOf today) i).total_focus_seconds)).sum / 60 := by
  have hwd0 : 0 ≤ weekdayOf (dateOf today) := Int.emod_nonneg _ (by norm_num)
  have hwd7 : weekdayOf (dateOf today) < 7 := Int.emod_lt_of_pos _ (by norm_num)
  have hfold := weeklyStep_foldl t (weekStartOf today) (dateOf today) (List.range 7) [] 0 0
  have hfilter : ((List.range 7).filter
        fun (i : ℕ) => decide (weekStartOf today + (i : ℤ) ≤ dateOf today))
      = List.range ((weekdayOf (dateOf today)).toNat + 1) := by
    have hcong : ∀ i ∈ List.range 7,
        (decide (weekStartOf today + (i : ℤ) ≤ dateOf today))
          = (decide (i ≤ (weekdayOf (dateOf today)).toNat)) := by
      intro i _
      have hiff : (weekStartOf today + (i : ℤ) ≤ dateOf today)
          ↔ (i ≤ (weekdayOf (dateOf today)).toNat) := by
        unfold weekStartOf weekdayOf at *
        omega
      simp [hiff]
    rw [List.filter_congr hcong]
    exact range7_filter_le _ (by omega)
  rw [hfilter] at hfold
  refine ⟨?_, ?_, ?_, ?_, ?_, ?_⟩
  · show ((List.range 7).foldl
        (weeklyStep t (weekStartOf today) (dateOf today)) ([], 0, 0)).1.length = 7
    rw [hfold]
    simp
  · show ((List.range 7).foldl
        (weeklyStep t (weekStartOf today) (dateOf today)) ([], 0, 0)).1.map DayEntry.date = _
    rw [hfold]
    simp only [List.nil_append, List.map_map]
    apply List.map_congr_left
    intro i _
    rfl
  · unfold weekStartOf weekdayOf
    omega
  · intro e he hnone
    have he2 : e ∈ ((List.range 7).foldl
        (weeklyStep t (weekStartOf today) (dateOf today)) ([], 0, 0)).1 := he
    rw [hfold] at he2
    simp only [List.nil_append, List.mem_map, List.mem_range] at he2
    obtain ⟨i, _, hei⟩ := he2
    subst hei
    have hdt : (weeklyEntry t (weekStartOf today) i).date
        = isoformat (civilFromDays (weekStartOf today + (i : ℤ))) := rfl
    rw [hdt] at hnone
    have hstat : weeklyDayStat t (weekStartOf today) i
        = DailyStats.fresh (isoformat (civilFromDays (weekStartOf today + (i : ℤ)))) := by
      simp only [weeklyDayStat]
      rw [hnone]
      rfl
    constructor
    · show (weeklyDayStat t (weekStartOf today) i).completed_pomodoros = 0
      rw [hstat]
      rfl
    · show (weeklyDayStat t (weekStartOf today) i).total_focus_seconds / 60 = 0
      rw [hstat]
      simp [DailyStats.fresh]
  · show ((List.range 7).foldl
        (weeklyStep t (weekStartOf today) (dateOf today)) ([], 0, 0)).2.1 = _
    rw [hfold]
    simp
  · show ((List.range 7).foldl
        (weeklyStep t (weekStartOf today) (dateOf today)) ([], 0, 0)).2.2 / 60 = _
    rw [hfold]
    simp

/-- Witness for C8 on the fresh tracker at `today = 2025-11-29`: 7 entries,
and the first entry (a day with no sessions) reports zero. -/
theorem c8_weekly_shape_witness :
    (get_weekly_stats GamificationTracker.start d1129).daily_data.length = 7 ∧
    ((get_weekly_stats GamificationTracker.start d1129).daily_data.getD 0
        default).completed_pomodoros = 0 := by
  have h := c8_weekly_shape GamificationTracker.start d1129
  exact ⟨h.1, (h.2.2.2.1 _ (by decide) (by decide)).1⟩

end Pomodoro
